import Mathlib

/-!
Verification of the forum export schema of microcosm-cc/export-schemas.

The repository declares the record types of the export format in
src/go/forum/types.go (with a legacy variant of the same schema); the only
component with evaluation semantics is the implicit usergroup membership
rule engine over the `Criterion` records of a `Role`.  The repository itself
only declares the `Criterion` type and its predicate constants, so the
evaluator (`Matches` and its helpers below) is modelled from the
specification of the Criterion Evaluator; the record types and their JSON
field mappings are embedded directly from the Go declarations.
-/

set_option maxHeartbeats 1000000

namespace ForumExport

/-- Modelled from the spec: the repository only declares `Value interface{}`
inside `Criterion` (src/go/forum/types.go line 134); the spec models the
dynamic value as a tagged union of integer, string, boolean and timestamp,
with `null` standing for Go's nil interface value. -/
inductive Value where
  | null
  | int (n : Int)
  | str (s : String)
  | bool (b : Bool)
  | time (t : Int)
  deriving DecidableEq

/-- The `Criterion` record of src/go/forum/types.go lines 130-135: an
OrGroup, an attribute Key, a Predicate name and a dynamic Value. -/
structure Criterion where
  orGroup : Int
  key : String
  predicate : String
  value : Value
  deriving DecidableEq

/-- Modelled from the spec: a user's attribute snapshot, a mapping from
attribute key to typed value (the Go `map[string]interface{}` assembled by
the importer); lookup returns the first binding of a key. -/
abbrev Attrs := List (String × Value)

/-- Modelled from the spec: whether a value is orderable (numeric or date),
the types on which the lt, le, ge and gt predicates are valid. -/
def isOrderable : Value → Bool
  | .int _ => true
  | .time _ => true
  | _ => false

/-- Modelled from the spec: whether a value is a string, the type on which
the substr and nsubstr predicates are valid. -/
def isString : Value → Bool
  | .str _ => true
  | _ => false

/-- Modelled from the spec: case-sensitive containment of the character
sequence `sub` inside the second list (Go `strings.Contains`). -/
def charsContain (sub : List Char) : List Char → Bool
  | [] => sub.isEmpty
  | h :: t => sub.isPrefixOf (h :: t) || charsContain sub t

/-- Modelled from the spec: case-sensitive substring containment of `sub`
inside `s`. -/
def strContains (s sub : String) : Bool :=
  charsContain sub.data s.data

/-- Modelled from the spec: ordered comparison of two integers under the
predicate name `p` (one of lt, le, ge, gt). -/
def intCmp (p : String) (x y : Int) : Bool :=
  if p = "lt" then decide (x < y)
  else if p = "le" then decide (x ≤ y)
  else if p = "ge" then decide (y ≤ x)
  else decide (y < x)

/-- Modelled from the spec: ordered comparison (numeric or chronological)
for the lt, le, ge and gt predicates; defined only when both sides are
numbers or both are dates, otherwise a type error (`none`). -/
def orderedCmp (p : String) : Value → Value → Option Bool
  | .int x, .int y => some (intCmp p x y)
  | .time x, .time y => some (intCmp p x y)
  | _, _ => none

/-- Modelled from the spec: the substr containment test; a type error
(`none`) unless both the attribute and the criterion value are strings. -/
def substrTest : Value → Value → Option Bool
  | .str s, .str sub => some (strContains s sub)
  | _, _ => none

/-- Modelled from the spec: evaluate one `Criterion` against the user's
attributes.  A missing attribute key is a non-match (`some false`), never an
error, whatever the predicate and value.  eq and ne use value equality
appropriate to the attribute's type; lt, le, ge and gt require an orderable
attribute; substr and nsubstr require a string attribute; a type mismatch or
an unknown predicate string is a configuration error (`none`). -/
def evalCriterion (attrs : Attrs) (c : Criterion) : Option Bool :=
  match attrs.lookup c.key with
  | none => some false
  | some a =>
      if c.predicate = "eq" then some (decide (a = c.value))
      else if c.predicate = "ne" then some (!(decide (a = c.value)))
      else if c.predicate = "lt" then orderedCmp c.predicate a c.value
      else if c.predicate = "le" then orderedCmp c.predicate a c.value
      else if c.predicate = "ge" then orderedCmp c.predicate a c.value
      else if c.predicate = "gt" then orderedCmp c.predicate a c.value
      else if c.predicate = "substr" then substrTest a c.value
      else if c.predicate = "nsubstr" then (substrTest a c.value).map (fun b => !b)
      else none

/-- Modelled from the spec: AND combination of two criterion results, a
configuration error on either side aborting the group. -/
def andM : Option Bool → Option Bool → Option Bool
  | some a, some b => some (a && b)
  | _, _ => none

/-- Modelled from the spec: OR combination of two group results, a
configuration error on either side aborting the role. -/
def orM : Option Bool → Option Bool → Option Bool
  | some a, some b => some (a || b)
  | _, _ => none

/-- Modelled from the spec: the distinct OrGroup values appearing in a
criteria list (the partition step of the evaluator). -/
def orGroups : List Criterion → List Int
  | [] => []
  | c :: t =>
      let r := orGroups t
      if c.orGroup ∈ r then r else c.orGroup :: r

/-- Modelled from the spec: evaluate the group of all criteria whose OrGroup
is `g`: the conjunction of the members' results (AND semantics), a
configuration error in any member aborting the group. -/
def evalGroup (attrs : Attrs) (criteria : List Criterion) (g : Int) : Option Bool :=
  ((criteria.filter fun c => c.orGroup == g).map (evalCriterion attrs)).foldr andM (some true)

/-- Modelled from the spec: the `Matches` contract of the Criterion
Evaluator: partition the criteria by OrGroup, AND within a group, OR across
groups; the empty criteria list yields false; a configuration error (type
mismatch or unknown predicate) aborts evaluation of the role (`none`). -/
def Matches (attrs : Attrs) (criteria : List Criterion) : Option Bool :=
  ((orGroups criteria).map (evalGroup attrs criteria)).foldr orM (some false)

/-- The `ForumPermissions` record of src/go/forum/types.go lines 100-109
(field for field identical in the legacy schema). -/
structure ForumPermissions where
  view : Bool
  postNew : Bool
  editOwn : Bool
  editOthers : Bool
  deleteOwn : Bool
  deleteOthers : Bool
  closeOwn : Bool
  openOwn : Bool
  deriving DecidableEq

/-- The Go zero value of `ForumPermissions`. -/
def noPermissions : ForumPermissions :=
  ⟨false, false, false, false, false, false, false, false⟩

/-- The `Role` record of src/go/forum/types.go lines 81-96. -/
structure Role where
  id : Int
  name : String
  text : String
  banned : Bool
  moderator : Bool
  forumPermissions : ForumPermissions
  includeRegistered : Bool
  includeGuests : Bool
  users : List Int
  criteria : List Criterion
  defaultRole : Bool
  deriving DecidableEq

/-- The legacy `Usergroup` record of the legacy schema file (the second
source file of the repository, lines 315-323). -/
structure Usergroup where
  id : Int
  name : String
  text : String
  banned : Bool
  moderator : Bool
  forumPermissions : ForumPermissions
  users : List Int
  deriving DecidableEq

/-- Modelled from the spec: an import evaluates each `Role` of the export
independently; a configuration error aborts evaluation of that role only,
not the whole import. -/
def evalImport (attrs : Attrs) (roles : List Role) : List (Option Bool) :=
  roles.map fun r => Matches attrs r.criteria

/-- Modelled from the spec: a well-formed export keeps explicit inclusion
(the `Users` list) and implicit inclusion (the `Criteria` list) mutually
exclusive per role. -/
def WellFormedRole (r : Role) : Prop :=
  r.criteria = [] ∨ r.users = []

/-- Modelled from the spec: a user belongs to a role either explicitly
(listed in `Users`) or implicitly (the criteria match the user's
attributes). -/
def memberOf (uid : Int) (attrs : Attrs) (r : Role) : Bool :=
  decide (uid ∈ r.users) || decide (Matches attrs r.criteria = some true)

/-- A JSON document for a `Criterion`: each field of the object is present
or absent.  The Lean field names are the JSON keys of the Go struct tags of
src/go/forum/types.go lines 130-135: `orGroup` and `predicate` carry no
omitempty option, `key` and `value` do. -/
structure CriterionJSON where
  orGroup? : Option Int
  key? : Option String
  predicate? : Option String
  value? : Option Value
  deriving DecidableEq

/-- Go `encoding/json` marshalling of a `Criterion` under the struct tags of
src/go/forum/types.go lines 130-135: `orGroup` and `predicate` are always
emitted; `key` (omitempty) is dropped when it is the empty string; `value`
(omitempty) is dropped when it is the nil interface value. -/
def encodeCriterion (c : Criterion) : CriterionJSON where
  orGroup? := some c.orGroup
  key? := if c.key = "" then none else some c.key
  predicate? := some c.predicate
  value? := if c.value = Value.null then none else some c.value

/-- Go `encoding/json` unmarshalling of a `Criterion` document: an absent
member leaves the Go zero value of the field (0, "", nil). -/
def decodeCriterion (j : CriterionJSON) : Criterion where
  orGroup := j.orGroup?.getD 0
  key := j.key?.getD ""
  predicate := j.predicate?.getD ""
  value := j.value?.getD Value.null

/-- A JSON document for a `Role`: each field of the object is present or
absent.  The Lean field names are the JSON keys of the Go struct tags of
src/go/forum/types.go lines 81-96; the seven keys id, name, text, isBanned,
isModerator, forumPermissions and users are exactly the keys of the legacy
`Usergroup` struct tags. -/
structure RoleDoc where
  id? : Option Int
  name? : Option String
  text? : Option String
  isBanned? : Option Bool
  isModerator? : Option Bool
  forumPermissions? : Option ForumPermissions
  includeRegisteredUsers? : Option Bool
  includeGuests? : Option Bool
  users? : Option (List Int)
  criteria? : Option (List CriterionJSON)
  default? : Option Bool
  deriving DecidableEq

/-- Go `encoding/json` marshalling of a legacy `Usergroup` under its struct
tags: `id` and `name` are always emitted; `text`, `isBanned`, `isModerator`
and `users` carry omitempty and are dropped at their zero values;
`forumPermissions` carries omitempty but Go never treats a struct value as
empty, so it is always emitted.  The document has no member for any of the
Role-only keys. -/
def encodeUsergroup (u : Usergroup) : RoleDoc where
  id? := some u.id
  name? := some u.name
  text? := if u.text = "" then none else some u.text
  isBanned? := if u.banned = false then none else some u.banned
  isModerator? := if u.moderator = false then none else some u.moderator
  forumPermissions? := some u.forumPermissions
  includeRegisteredUsers? := none
  includeGuests? := none
  users? := if u.users = [] then none else some u.users
  criteria? := none
  default? := none

/-- Go `encoding/json` unmarshalling of a `Role` document: an absent member
leaves the Go zero value of the field. -/
def decodeRole (d : RoleDoc) : Role where
  id := d.id?.getD 0
  name := d.name?.getD ""
  text := d.text?.getD ""
  banned := d.isBanned?.getD false
  moderator := d.isModerator?.getD false
  forumPermissions := d.forumPermissions?.getD noPermissions
  includeRegistered := d.includeRegisteredUsers?.getD false
  includeGuests := d.includeGuests?.getD false
  users := d.users?.getD []
  criteria := (d.criteria?.getD []).map decodeCriterion
  defaultRole := d.default?.getD false

/-- The example criteria list of the `Criterion` documentation
(src/go/forum/types.go lines 117-120). -/
def exampleCriteria : List Criterion :=
  [⟨0, "comments", "ge", .int 1500⟩,
   ⟨0, "is_member", "eq", .bool true⟩,
   ⟨1, "foo", "eq", .str "bar"⟩]

/-- Concrete attributes satisfying both criteria of group 0 of
`exampleCriteria`. -/
def c1Attrs : Attrs :=
  [("comments", .int 2000), ("is_member", .bool true), ("foo", .str "baz")]

/-- Attributes for the counterexample to the unconditioned reading of the
grouping law: attribute `s` is a string. -/
def c1BadAttrs : Attrs :=
  [("x", .int 1), ("s", .str "a")]

/-- Criteria for the counterexample: group 0 is fully satisfied while group
1 applies `ge` to the string attribute `s`, a configuration error. -/
def c1BadCriteria : List Criterion :=
  [⟨0, "x", "eq", .int 1⟩, ⟨1, "s", "ge", .int 0⟩]

/-- Attributes in which the key `title` holds a string. -/
def c3Attrs : Attrs :=
  [("title", .str "x"), ("n", .int 5)]

/-- A criterion applying the ordered predicate `ge` to the present string
attribute `title`: a configuration error. -/
def c3Crit : Criterion :=
  ⟨0, "title", "ge", .int 3⟩

/-- A role whose single criterion evaluates without error. -/
def c3GoodRole : Role :=
  ⟨1, "", "", false, false, noPermissions, false, false, [], [⟨0, "n", "eq", .int 5⟩], false⟩

/-- A role containing the type-mismatched criterion `c3Crit`. -/
def c3BadRole : Role :=
  ⟨2, "", "", false, false, noPermissions, false, false, [], [c3Crit], false⟩

/-- Attributes that do not bind the key `missing`. -/
def c4Attrs : Attrs :=
  [("a", .int 1)]

/-- A criterion on an absent key, with an unknown predicate and a nil value. -/
def c4Crit : Criterion :=
  ⟨3, "missing", "frobnicate", .null⟩

/-- Attributes for the permutation witness. -/
def c7Attrs : Attrs :=
  [("x", .int 1)]

/-- A two-group criteria list. -/
def c7L1 : List Criterion :=
  [⟨0, "x", "eq", .int 1⟩, ⟨1, "y", "eq", .int 2⟩]

/-- The reverse permutation of `c7L1`. -/
def c7L2 : List Criterion :=
  [⟨1, "y", "eq", .int 2⟩, ⟨0, "x", "eq", .int 1⟩]

/-- A well-formed role with implicit criteria and no explicit users. -/
def c8Role : Role :=
  ⟨9, "vip", "", false, false, noPermissions, false, false, [],
   [⟨0, "comments", "ge", .int 1500⟩], false⟩

/-- Attributes qualifying a user for `c8Role`. -/
def c8Attrs : Attrs :=
  [("comments", .int 2000)]

/-- A criterion with empty key and nil value, exercising the omitempty
options on encoding. -/
def c9Crit : Criterion :=
  ⟨5, "", "eq", .null⟩

/-- A criterion JSON document lacking the orGroup member. -/
def c9Doc : CriterionJSON :=
  ⟨none, some "k", some "eq", some (.int 1)⟩

/-- A criteria list with one group-0 member and one group-2 member. -/
def c9List : List Criterion :=
  [⟨0, "a", "eq", .int 1⟩, ⟨2, "b", "eq", .int 2⟩]

/-- Two booleans agreeing as propositions are equal. -/
lemma bool_eq_of_iff {a b : Bool} (h : a = true ↔ b = true) : a = b := by
  cases a <;> cases b <;> simp_all

/-- Boolean `all` commutes with `map`. -/
lemma all_map_eq {α β : Type} (l : List α) (f : α → β) (p : β → Bool) :
    (l.map f).all p = l.all fun a => p (f a) := by
  induction l with
  | nil => rfl
  | cons x t ih => simp [ih]

/-- Boolean `any` commutes with `map`. -/
lemma any_map_eq {α β : Type} (l : List α) (f : α → β) (p : β → Bool) :
    (l.map f).any p = l.any fun a => p (f a) := by
  induction l with
  | nil => rfl
  | cons x t ih => simp [ih]

/-- An `Option Bool` defaults to `false` exactly when it is not `some true`. -/
lemma getD_false_eq_true (x : Option Bool) : x.getD false = true ↔ x = some true := by
  cases x with
  | none => simp
  | some b => simp

/-- Folding the error-propagating AND over a list of results: `none` when any
result is an error, otherwise the conjunction of the booleans. -/
lemma foldr_andM_eq (l : List (Option Bool)) :
    l.foldr andM (some true) =
      if l.all Option.isSome then some (l.all fun x => x.getD false) else none := by
  induction l with
  | nil => rfl
  | cons x t ih =>
    cases x with
    | none => simp [andM]
    | some b =>
      by_cases hc : t.all Option.isSome
      · rw [List.foldr_cons, ih, if_pos hc]
        simp [andM, hc]
      · rw [List.foldr_cons, ih, if_neg hc]
        simp [andM, hc]

/-- Folding the error-propagating OR over a list of results: `none` when any
result is an error, otherwise the disjunction of the booleans. -/
lemma foldr_orM_eq (l : List (Option Bool)) :
    l.foldr orM (some false) =
      if l.all Option.isSome then some (l.any fun x => x.getD false) else none := by
  induction l with
  | nil => rfl
  | cons x t ih =>
    cases x with
    | none => simp [orM]
    | some b =>
      by_cases hc : t.all Option.isSome
      · rw [List.foldr_cons, ih, if_pos hc]
        simp [orM, hc]
      · rw [List.foldr_cons, ih, if_neg hc]
        simp [orM, hc]

/-- Membership in the distinct OrGroup values of a criteria list. -/
lemma mem_orGroups {g : Int} {l : List Criterion} :
    g ∈ orGroups l ↔ ∃ c, c ∈ l ∧ c.orGroup = g := by
  induction l with
  | nil => simp [orGroups]
  | cons c t ih =>
    simp only [orGroups]
    by_cases h : c.orGroup ∈ orGroups t
    · rw [if_pos h]
      constructor
      · intro hg
        rcases ih.mp hg with ⟨d, hd, hdg⟩
        exact ⟨d, List.mem_cons_of_mem _ hd, hdg⟩
      · rintro ⟨d, hd, hdg⟩
        rcases List.mem_cons.mp hd with rfl | hdt
        · exact hdg ▸ (ih.mpr (ih.mp (hdg ▸ h)))
        · exact ih.mpr ⟨d, hdt, hdg⟩
    · rw [if_neg h]
      constructor
      · intro hg
        rcases List.mem_cons.mp hg with rfl | hgt
        · exact ⟨c, List.mem_cons_self c t, rfl⟩
        · rcases ih.mp hgt with ⟨d, hd, hdg⟩
          exact ⟨d, List.mem_cons_of_mem _ hd, hdg⟩
      · rintro ⟨d, hd, hdg⟩
        rcases List.mem_cons.mp hd with rfl | hdt
        · exact hdg ▸ List.mem_cons_self _ _
        · exact List.mem_cons_of_mem _ (ih.mpr ⟨d, hdt, hdg⟩)

/-- Checking a predicate group by group over the partition is checking it on
the whole criteria list. -/
lemma orGroups_all (l : List Criterion) (p : Criterion → Bool) :
    ((orGroups l).all fun g => (l.filter fun c => c.orGroup == g).all p) = l.all p := by
  apply bool_eq_of_iff
  simp only [List.all_eq_true, List.mem_filter, beq_iff_eq]
  constructor
  · intro h c hc
    exact h c.orGroup (mem_orGroups.mpr ⟨c, hc, rfl⟩) c ⟨hc, rfl⟩
  · intro h g _ c hc
    exact h c hc.1

/-- A boolean test on the distinct OrGroup values is a test on the OrGroup
of some member of the criteria list. -/
lemma orGroups_any (l : List Criterion) (p : Int → Bool) :
    (orGroups l).any p = l.any fun c => p c.orGroup := by
  apply bool_eq_of_iff
  simp only [List.any_eq_true]
  constructor
  · rintro ⟨g, hg, hp⟩
    rcases mem_orGroups.mp hg with ⟨c, hc, rfl⟩
    exact ⟨c, hc, hp⟩
  · rintro ⟨c, hc, hp⟩
    exact ⟨c.orGroup, mem_orGroups.mpr ⟨c, hc, rfl⟩, hp⟩

/-- Group evaluation characterised: an error when any member errs, otherwise
the conjunction of the members' boolean results. -/
lemma evalGroup_eq (attrs : Attrs) (criteria : List Criterion) (g : Int) :
    evalGroup attrs criteria g =
      if (criteria.filter fun c => c.orGroup == g).all (fun c => (evalCriterion attrs c).isSome)
      then some ((criteria.filter fun c => c.orGroup == g).all
        fun c => (evalCriterion attrs c).getD false)
      else none := by
  unfold evalGroup
  rw [foldr_andM_eq, all_map_eq, all_map_eq]

/-- The evaluator characterised: `Matches` is an error exactly when some
criterion errs against the attributes, and otherwise is true exactly when
the full OrGroup-mates of some criterion all evaluate true. -/
theorem matches_char (attrs : Attrs) (criteria : List Criterion) :
    Matches attrs criteria =
      if criteria.all (fun c => (evalCriterion attrs c).isSome)
      then some (criteria.any fun c =>
        (criteria.filter fun d => d.orGroup == c.orGroup).all
          fun d => (evalCriterion attrs d).getD false)
      else none := by
  unfold Matches
  rw [foldr_orM_eq, all_map_eq, any_map_eq]
  have hS : ∀ g : Int, (evalGroup attrs criteria g).isSome =
      (criteria.filter fun c => c.orGroup == g).all fun c => (evalCriterion attrs c).isSome := by
    intro g
    rw [evalGroup_eq]
    split <;> simp_all
  have hD : ∀ g : Int, (evalGroup attrs criteria g).getD false =
      (((criteria.filter fun c => c.orGroup == g).all fun c => (evalCriterion attrs c).isSome) &&
        ((criteria.filter fun c => c.orGroup == g).all
          fun c => (evalCriterion attrs c).getD false)) := by
    intro g
    rw [evalGroup_eq]
    split <;> simp_all
  simp only [hS, hD]
  rw [orGroups_all]
  by_cases hok : criteria.all fun c => (evalCriterion attrs c).isSome
  · rw [if_pos hok, if_pos hok]
    congr 1
    have hmatesOk : ∀ c ∈ criteria,
        ((criteria.filter fun d => d.orGroup == c.orGroup).all
          fun d => (evalCriterion attrs d).isSome) = true := by
      intro c _
      rw [List.all_eq_true] at hok ⊢
      intro d hd
      exact hok d (List.mem_filter.mp hd).1
    rw [orGroups_any]
    apply bool_eq_of_iff
    simp only [List.any_eq_true]
    constructor
    · rintro ⟨c, hc, hp⟩
      rw [Bool.and_eq_true] at hp
      exact ⟨c, hc, hp.2⟩
    · rintro ⟨c, hc, hp⟩
      exact ⟨c, hc, by rw [hmatesOk c hc, hp]; rfl⟩
  · rw [if_neg hok, if_neg hok]

/-- Ordered comparison of a non-orderable attribute is a type error. -/
lemma orderedCmp_none (p : String) {a : Value} (v : Value) (h : isOrderable a = false) :
    orderedCmp p a v = none := by
  cases a <;> cases v <;> first
    | rfl
    | simp [isOrderable] at h

/-- A substring test on a non-string attribute is a type error. -/
lemma substrTest_none {a : Value} (v : Value) (h : isString a = false) :
    substrTest a v = none := by
  cases a <;> cases v <;> first
    | rfl
    | simp [isString] at h

/-- Boolean `all` is invariant under permutation. -/
lemma perm_all {α : Type} {l m : List α} (p : α → Bool) (h : l.Perm m) :
    l.all p = m.all p := by
  apply bool_eq_of_iff
  simp only [List.all_eq_true]
  exact ⟨fun H x hx => H x (h.mem_iff.mpr hx), fun H x hx => H x (h.mem_iff.mp hx)⟩

/-- Boolean `any` is invariant under permutation. -/
lemma perm_any {α : Type} {l m : List α} (p : α → Bool) (h : l.Perm m) :
    l.any p = m.any p := by
  apply bool_eq_of_iff
  simp only [List.any_eq_true]
  constructor
  · rintro ⟨x, hx, hp⟩
    exact ⟨x, h.mem_iff.mp hx, hp⟩
  · rintro ⟨x, hx, hp⟩
    exact ⟨x, h.mem_iff.mpr hx, hp⟩

/-- The empty criteria list evaluates to `some false`. -/
lemma matches_nil (attrs : Attrs) : Matches attrs [] = some false := rfl

/-- C2: for every user attribute mapping, `Matches` applied to the empty
criteria list returns false, never granting implicit membership. -/
theorem matches_empty_criteria_false (attrs : Attrs) : Matches attrs [] = some false :=
  matches_nil attrs

/-- C5: the documented example criteria list evaluates as the spec states on
the three sample attribute mappings: group 0 satisfied, group 1 satisfied,
and no group satisfied. -/
theorem matches_documented_example :
    Matches [("comments", Value.int 2000), ("is_member", Value.bool true),
      ("foo", Value.str "baz")] exampleCriteria = some true ∧
    Matches [("comments", Value.int 100), ("is_member", Value.bool true),
      ("foo", Value.str "bar")] exampleCriteria = some true ∧
    Matches [("comments", Value.int 100), ("is_member", Value.bool false),
      ("foo", Value.str "baz")] exampleCriteria = some false := by
  refine ⟨by decide, by decide, by decide⟩

/-- C6: the substr predicate is case-sensitive substring containment on
string attributes: value "admin" matches the attribute value
"administrator", and matches neither "guest" nor the capitalised
"Administrator". -/
theorem substr_case_sensitive_containment :
    evalCriterion [("name", Value.str "administrator")] ⟨0, "name", "substr", .str "admin"⟩
      = some true ∧
    evalCriterion [("name", Value.str "guest")] ⟨0, "name", "substr", .str "admin"⟩
      = some false ∧
    evalCriterion [("name", Value.str "Administrator")] ⟨0, "name", "substr", .str "admin"⟩
      = some false := by
  refine ⟨by decide, by decide, by decide⟩

/-- C7: the result of `Matches` depends only on the multiset of criterion
records: permuting the criteria list never changes the outcome. -/
theorem matches_perm_invariant (attrs : Attrs) (l m : List Criterion) (h : l.Perm m) :
    Matches attrs l = Matches attrs m := by
  rw [matches_char, matches_char, perm_all _ h]
  by_cases hok : m.all fun c => (evalCriterion attrs c).isSome
  · rw [if_pos hok, if_pos hok]
    congr 1
    have hpt : ∀ c : Criterion,
        ((l.filter fun d => d.orGroup == c.orGroup).all
          fun d => (evalCriterion attrs d).getD false) =
        ((m.filter fun d => d.orGroup == c.orGroup).all
          fun d => (evalCriterion attrs d).getD false) :=
      fun c => perm_all _ (h.filter _)
    simp only [hpt]
    exact perm_any _ h
  · rw [if_neg hok, if_neg hok]

/-- C7 witness: a concrete permutation of a two-group criteria list leaves
the result of `Matches` unchanged. -/
theorem matches_perm_invariant_witness :
    c7L1.Perm c7L2 ∧ Matches c7Attrs c7L1 = Matches c7Attrs c7L2 :=
  ⟨by decide, matches_perm_invariant c7Attrs c7L1 c7L2 (by decide)⟩

/-- C1 counterexample: group 0 of `c1BadCriteria` is fully satisfied by
`c1BadAttrs` (so an OrGroup value with all its criteria evaluating true
exists, and the list is non-empty), yet `Matches` does not return true,
because group 1 applies `ge` to a string attribute and the configuration
error aborts evaluation of the role. -/
theorem matches_iff_group_cex :
    c1BadCriteria ≠ [] ∧
    (∃ c ∈ c1BadCriteria, ∀ d ∈ c1BadCriteria,
      d.orGroup = c.orGroup → evalCriterion c1BadAttrs d = some true) ∧
    Matches c1BadAttrs c1BadCriteria ≠ some true := by
  refine ⟨by decide, by decide, by decide⟩

/-- C1 (amended): whenever no criterion of the (non-empty) list signals a
configuration error against the attributes, `Matches` returns true exactly
when some OrGroup value occurring in the list has all its criteria
evaluating true: criteria sharing an OrGroup are AND-ed, distinct OrGroup
values are OR-ed. -/
theorem matches_iff_satisfied_group (attrs : Attrs) (criteria : List Criterion)
    (_hne : criteria ≠ [])
    (hok : ∀ c ∈ criteria, evalCriterion attrs c ≠ none) :
    Matches attrs criteria = some true ↔
      ∃ c ∈ criteria, ∀ d ∈ criteria,
        d.orGroup = c.orGroup → evalCriterion attrs d = some true := by
  have hall : (criteria.all fun c => (evalCriterion attrs c).isSome) = true := by
    rw [List.all_eq_true]
    intro c hc
    exact Option.isSome_iff_ne_none.mpr (hok c hc)
  rw [matches_char, if_pos hall]
  constructor
  · intro hsome
    have hany := Option.some.inj hsome
    rcases List.any_eq_true.mp hany with ⟨c, hc, hT⟩
    refine ⟨c, hc, fun d hd hdg => ?_⟩
    have hmem : d ∈ criteria.filter fun e => e.orGroup == c.orGroup :=
      List.mem_filter.mpr ⟨hd, by simp [hdg]⟩
    exact (getD_false_eq_true _).mp (List.all_eq_true.mp hT d hmem)
  · rintro ⟨c, hc, hT⟩
    have hany : (criteria.any fun c =>
        (criteria.filter fun d => d.orGroup == c.orGroup).all
          fun d => (evalCriterion attrs d).getD false) = true := by
      refine List.any_eq_true.mpr ⟨c, hc, List.all_eq_true.mpr fun d hd => ?_⟩
      rcases List.mem_filter.mp hd with ⟨hdm, hdg⟩
      exact (getD_false_eq_true _).mpr (hT d hdm (by simpa using hdg))
    rw [hany]

/-- C1 witness: the amended grouping law instantiated on the documented
example criteria and attributes satisfying its group 0. -/
theorem matches_iff_satisfied_group_witness :
    (exampleCriteria ≠ [] ∧ ∀ c ∈ exampleCriteria, evalCriterion c1Attrs c ≠ none) ∧
    (Matches c1Attrs exampleCriteria = some true ↔
      ∃ c ∈ exampleCriteria, ∀ d ∈ exampleCriteria,
        d.orGroup = c.orGroup → evalCriterion c1Attrs d = some true) :=
  ⟨⟨by decide, by decide⟩,
    matches_iff_satisfied_group c1Attrs exampleCriteria (by decide) (by decide)⟩

/-- C3: an ordered predicate (lt, le, ge, gt) on a present non-orderable
attribute, or a substring predicate (substr, nsubstr) on a present
non-string attribute, signals a configuration error instead of a boolean:
the criterion evaluates to `none`, every role containing it evaluates to
`none`, and in an import the error is confined to that role — the
surrounding roles evaluate exactly as they would without it. -/
theorem type_error_aborts_role (attrs : Attrs) (c : Criterion) (a : Value)
    (hk : attrs.lookup c.key = some a)
    (hbad : ((c.predicate = "lt" ∨ c.predicate = "le" ∨ c.predicate = "ge" ∨
        c.predicate = "gt") ∧ isOrderable a = false) ∨
      ((c.predicate = "substr" ∨ c.predicate = "nsubstr") ∧ isString a = false)) :
    evalCriterion attrs c = none ∧
    (∀ criteria, c ∈ criteria → Matches attrs criteria = none) ∧
    (∀ (pre post : List Role) (r : Role), c ∈ r.criteria →
      evalImport attrs (pre ++ r :: post) =
        evalImport attrs pre ++ none :: evalImport attrs post) := by
  have h1 : evalCriterion attrs c = none := by
    unfold evalCriterion
    rw [hk]
    rcases hbad with ⟨hp, ho⟩ | ⟨hp, hs⟩
    · rcases hp with h | h | h | h <;> simp [h, orderedCmp_none _ _ ho]
    · rcases hp with h | h <;> simp [h, substrTest_none _ hs]
  have h2 : ∀ criteria, c ∈ criteria → Matches attrs criteria = none := by
    intro criteria hc
    rw [matches_char]
    have hfail : ¬ ((criteria.all fun d => (evalCriterion attrs d).isSome) = true) := by
      intro hall
      have := List.all_eq_true.mp hall c hc
      rw [h1] at this
      simp at this
    rw [if_neg hfail]
  refine ⟨h1, h2, fun pre post r hr => ?_⟩
  simp [evalImport, h2 r.criteria hr]

/-- C3 witness: the `ge` criterion `c3Crit` on the present string attribute
`title` errs, aborts its own role, and leaves the surrounding roles of
the import untouched. -/
theorem type_error_aborts_role_witness :
    c3Attrs.lookup c3Crit.key = some (Value.str "x") ∧
    ((c3Crit.predicate = "lt" ∨ c3Crit.predicate = "le" ∨ c3Crit.predicate = "ge" ∨
        c3Crit.predicate = "gt") ∧ isOrderable (Value.str "x") = false) ∧
    evalCriterion c3Attrs c3Crit = none ∧
    Matches c3Attrs [c3Crit] = none ∧
    evalImport c3Attrs ([c3GoodRole] ++ c3BadRole :: [c3GoodRole]) =
      evalImport c3Attrs [c3GoodRole] ++ none :: evalImport c3Attrs [c3GoodRole] := by
  have h := type_error_aborts_role c3Attrs c3Crit (Value.str "x") (by decide)
    (Or.inl ⟨by decide, by decide⟩)
  exact ⟨by decide, ⟨by decide, by decide⟩, h.1, h.2.1 [c3Crit] (by decide),
    h.2.2 [c3GoodRole] [c3GoodRole] c3BadRole (by decide)⟩

/-- C4: a criterion whose key is absent from the attribute mapping evaluates
to `some false` — never an error, whatever its predicate and value — and the
group holding it cannot be satisfied. -/
theorem missing_key_nonmatch (attrs : Attrs) (c : Criterion)
    (h : attrs.lookup c.key = none) :
    evalCriterion attrs c = some false ∧
    ∀ criteria, c ∈ criteria → evalGroup attrs criteria c.orGroup ≠ some true := by
  have h1 : evalCriterion attrs c = some false := by
    unfold evalCriterion
    rw [h]
  refine ⟨h1, fun criteria hc => ?_⟩
  rw [evalGroup_eq]
  split
  · intro heq
    have hall := Option.some.inj heq
    have hmem : c ∈ criteria.filter fun d => d.orGroup == c.orGroup :=
      List.mem_filter.mpr ⟨hc, by simp⟩
    have := List.all_eq_true.mp hall c hmem
    rw [h1] at this
    simp at this
  · simp

/-- C4 witness: a criterion on the absent key `missing`, with an unknown
predicate and a nil value, is a plain non-match and fails its group. -/
theorem missing_key_nonmatch_witness :
    c4Attrs.lookup c4Crit.key = none ∧
    evalCriterion c4Attrs c4Crit = some false ∧
    evalGroup c4Attrs [c4Crit] c4Crit.orGroup ≠ some true := by
  have h := missing_key_nonmatch c4Attrs c4Crit (by decide)
  exact ⟨by decide, h.1, h.2 [c4Crit] (by decide)⟩

/-- C8: in a well-formed export, explicit and implicit inclusion are
mutually exclusive per role: a role with a non-empty criteria list carries
no explicit user list, so membership in it is decided by `Matches` alone. -/
theorem wellformed_role_exclusive (r : Role) (hw : WellFormedRole r)
    (hc : r.criteria ≠ []) :
    r.users = [] ∧
    ∀ uid attrs, memberOf uid attrs r = true → Matches attrs r.criteria = some true := by
  have hu : r.users = [] := hw.resolve_left hc
  refine ⟨hu, fun uid attrs hm => ?_⟩
  unfold memberOf at hm
  rw [hu] at hm
  simpa using hm

/-- C8 witness: a concrete well-formed role with criteria has no explicit
users, and a member of it matches the criteria. -/
theorem wellformed_role_exclusive_witness :
    WellFormedRole c8Role ∧ c8Role.criteria ≠ [] ∧ c8Role.users = [] ∧
    (memberOf 7 c8Attrs c8Role = true → Matches c8Attrs c8Role.criteria = some true) := by
  have hw : WellFormedRole c8Role := by
    unfold WellFormedRole
    exact Or.inr rfl
  have h := wellformed_role_exclusive c8Role hw (by decide)
  exact ⟨hw, by decide, h.1, fun hm => h.2 7 c8Attrs hm⟩

/-- C9: encoding a `Criterion` always emits the orGroup and predicate
members and drops key and value exactly at their empty/nil values, and a
criterion document lacking an orGroup member decodes to OrGroup 0, joining
group 0 of any criteria list rather than being rejected or forming a group
of its own. -/
theorem criterion_json_field_mapping (c : Criterion) (j : CriterionJSON)
    (hj : j.orGroup? = none) :
    (encodeCriterion c).orGroup? = some c.orGroup ∧
    (encodeCriterion c).predicate? = some c.predicate ∧
    (c.key = "" → (encodeCriterion c).key? = none) ∧
    (c.key ≠ "" → (encodeCriterion c).key? = some c.key) ∧
    (c.value = Value.null → (encodeCriterion c).value? = none) ∧
    (c.value ≠ Value.null → (encodeCriterion c).value? = some c.value) ∧
    (decodeCriterion j).orGroup = 0 ∧
    ∀ criteria : List Criterion,
      (decodeCriterion j :: criteria).filter (fun d => d.orGroup == 0) =
        decodeCriterion j :: criteria.filter fun d => d.orGroup == 0 := by
  have h0 : (decodeCriterion j).orGroup = 0 := by
    simp [decodeCriterion, hj]
  refine ⟨rfl, rfl, fun h => by simp [encodeCriterion, h],
    fun h => by simp [encodeCriterion, h], fun h => by simp [encodeCriterion, h],
    fun h => by simp [encodeCriterion, h], h0, fun criteria => ?_⟩
  rw [List.filter_cons]
  simp [h0]

/-- C9 witness: the omitempty behaviour on a criterion with empty key and
nil value, and the decoding of a document without an orGroup member. -/
theorem criterion_json_field_mapping_witness :
    c9Doc.orGroup? = none ∧
    (encodeCriterion c9Crit).orGroup? = some c9Crit.orGroup ∧
    (encodeCriterion c9Crit).predicate? = some c9Crit.predicate ∧
    (encodeCriterion c9Crit).key? = none ∧
    (encodeCriterion c9Crit).value? = none ∧
    (decodeCriterion c9Doc).orGroup = 0 ∧
    (decodeCriterion c9Doc :: c9List).filter (fun d => d.orGroup == 0) =
      decodeCriterion c9Doc :: c9List.filter fun d => d.orGroup == 0 := by
  have h := criterion_json_field_mapping c9Crit c9Doc rfl
  exact ⟨rfl, h.1, h.2.1, h.2.2.1 rfl, h.2.2.2.2.1 rfl, h.2.2.2.2.2.2.1,
    h.2.2.2.2.2.2.2 c9List⟩

/-- C10: a legacy `Usergroup` document decodes into a current `Role` with
the seven shared JSON fields (id, name, text, isBanned, isModerator,
forumPermissions, users) preserved and the criteria list empty, so the
decoded role grants no implicit membership. -/
theorem usergroup_decodes_as_role (u : Usergroup) :
    (decodeRole (encodeUsergroup u)).id = u.id ∧
    (decodeRole (encodeUsergroup u)).name = u.name ∧
    (decodeRole (encodeUsergroup u)).text = u.text ∧
    (decodeRole (encodeUsergroup u)).banned = u.banned ∧
    (decodeRole (encodeUsergroup u)).moderator = u.moderator ∧
    (decodeRole (encodeUsergroup u)).forumPermissions = u.forumPermissions ∧
    (decodeRole (encodeUsergroup u)).users = u.users ∧
    (decodeRole (encodeUsergroup u)).criteria = [] ∧
    ∀ attrs, Matches attrs (decodeRole (encodeUsergroup u)).criteria = some false := by
  have hcrit : (decodeRole (encodeUsergroup u)).criteria = [] := rfl
  refine ⟨rfl, rfl, ?_, ?_, ?_, rfl, ?_, hcrit, fun attrs => ?_⟩
  · by_cases h : u.text = "" <;> simp [decodeRole, encodeUsergroup, h]
  · cases hb : u.banned <;> simp [decodeRole, encodeUsergroup, hb]
  · cases hm : u.moderator <;> simp [decodeRole, encodeUsergroup, hm]
  · by_cases h : u.users = [] <;> simp [decodeRole, encodeUsergroup, h]
  · rw [hcrit]
    exact matches_nil attrs

end ForumExport
